import Mathlib

/-!
Verification development for the Quotation-System repository.

The definitions below are a shallow embedding of the Python sources:
- `src/api/index.py` — `QuotationSystem.get_quote` (pricing engine);
- `src/data/convert_data.py` — `clean_price`, `clean_coil`,
  `process_master_file` (header detection, column classification,
  row extraction and filtering);
- `src/app.py` — `clean_price_value`, `clean_coil_len`, `detect_uom`,
  `load_data_from_files` (filtering step) and the sidebar coil/meters
  quantity block.

Numbers are modelled as exact rationals (`ℚ`); spreadsheet cells are
`Option String` (`none` models a pandas `NaN`); Python's `round(x, 2)`
(banker's rounding) is modelled by `pyRound2` on exact rationals; the
regex semantics of pandas `str.contains` (default `regex=True`),
including the `re.error` path, is modelled by `reCompile`/`reSearch`
and the regex-faithful `quoteOneRe`/`get_quote_re`.
-/

namespace QuotationSystem

/-! ### String helpers

Python's case-insensitive substring tests (`"X" in s.upper()`) are
modelled by an explicit scan over uppercased character lists.  pandas
`Series.str.contains(name, case=False)` compiles its pattern as a
regular expression (`regex=True` default) and is modelled separately
by `reCompile`/`reContains` further down. -/

/-- Uppercase character list of a string (models `s.upper()`). -/
def upperChars (s : String) : List Char :=
  s.toList.map Char.toUpper

/-- Test `strLeads p l` : `p` occurs at the start of `l`. -/
def strLeads : List Char → List Char → Bool
  | [], _ => true
  | _ :: _, [] => false
  | a :: p, b :: l => a == b && strLeads p l

/-- Test `strWithin p l` : `p` occurs contiguously somewhere inside `l`. -/
def strWithin (p : List Char) : List Char → Bool
  | [] => strLeads p []
  | b :: l => strLeads p (b :: l) || strWithin p l

/-- Case-insensitive containment: `pat.upper() in hay.upper()`. -/
def containsCI (hay pat : String) : Bool :=
  strWithin (upperChars pat) (upperChars hay)

/-! ### ValueCleaner

`clean_price` / `clean_coil` from `src/data/convert_data.py` and the
identical `clean_price_value` / `clean_coil_len` from `src/app.py`:
strip every character that is not a digit or a decimal point
(`re.sub(r'[^\d.]', '', s)`), then `float(...)`, any failure giving 0. -/

/-- Characters kept by `re.sub(r'[^\d.]', '', s)`. -/
def keepNumeric (c : Char) : Bool :=
  c.isDigit || c == '.'

/-- The stripped character list of a raw cell string. -/
def stripNonNumeric (s : String) : List Char :=
  s.toList.filter keepNumeric

/-- Decimal value of a digit list (most significant first). -/
def digitsVal (l : List Char) : ℕ :=
  l.foldl (fun a c => 10 * a + (c.toNat - 48)) 0

/-- Python `float(...)` on an unsigned plain decimal literal: defined
iff every character is a digit or a dot, with at least one digit and at
most one dot (anything else — e.g. "12a" — raises in Python); the value
of `ip.fp` is `(ip * 10^k + fp) / 10^k` with `k` the number of
fractional digits (built with `mkRat` so that it evaluates).  Exponent
notation, infinities and embedded underscores are outside the modeled
subset; the cleaners below only ever pass digit/dot strings. -/
def parseDigitDot (l : List Char) : Option ℚ :=
  if l.all keepNumeric = true ∧ l.any Char.isDigit = true ∧ l.count '.' ≤ 1 then
    let ip := l.takeWhile (fun c => c ≠ '.')
    let fp := (l.dropWhile (fun c => c ≠ '.')).drop 1
    some (mkRat (digitsVal ip * 10 ^ fp.length + digitsVal fp) (10 ^ fp.length))
  else
    none

/-- Function `clean_price` (`src/data/convert_data.py` lines 13-20): `NaN` ↦ 0,
otherwise strip non-numeric characters, parse as float, failure ↦ 0. -/
def clean_price : Option String → ℚ
  | none => 0
  | some v => (parseDigitDot (stripNonNumeric v)).getD 0

/-- Function `clean_price_value` (`src/app.py` lines 74-79) is the same function. -/
def clean_price_value : Option String → ℚ :=
  clean_price

/-- Function `clean_coil` (`src/data/convert_data.py` lines 22-29):
`int(float(stripped))`; the parsed value is non-negative, so Python's
truncation toward zero coincides with the floor. -/
def clean_coil : Option String → ℤ
  | none => 0
  | some v =>
    match parseDigitDot (stripNonNumeric v) with
    | some q => Int.floor q
    | none => 0

/-- Function `clean_coil_len` (`src/app.py` lines 81-86): same stripping, kept
as a float. -/
def clean_coil_len : Option String → ℚ
  | none => 0
  | some v => (parseDigitDot (stripNonNumeric v)).getD 0

/-! ### Pricing engine (`src/api/index.py`, `QuotationSystem.get_quote`)

The catalog rows built by `add_cat` / `process_hmi` carry columns
`Item Name`, `List Price`, `Standard Discount`, `GST Rate` (always set
to `18.0` by both builders). -/

/-- One catalog row of `QuotationSystem.catalog`. -/
structure CatalogRow where
  itemName : String
  listPrice : ℚ
  standardDiscount : ℚ
  gstRate : ℚ
deriving DecidableEq

/-- One element of the `items` list passed to `get_quote`. -/
structure QuoteItem where
  name : String
  qty : ℚ
deriving DecidableEq

/-- One element of the result list of `get_quote`: either the
`{'Description': "NOT FOUND: ...", 'Total': 0}` placeholder, or the
full priced dict (its monetary fields rounded with `round(_, 2)`). -/
inductive QuoteLine where
  | notFound (description : String) (total : ℚ)
  | priced (description : String) (qty listPrice discount netRate total : ℚ)
deriving DecidableEq

/-- Whether the line is the not-found placeholder. -/
def QuoteLine.isNotFound : QuoteLine → Bool
  | .notFound _ _ => true
  | .priced _ _ _ _ _ _ => false

/-- The `Description` field of a result line. -/
def QuoteLine.descVal : QuoteLine → String
  | .notFound d _ => d
  | .priced d _ _ _ _ _ => d

/-- The `Discount` field of a result line (0 on the placeholder). -/
def QuoteLine.discVal : QuoteLine → ℚ
  | .notFound _ _ => 0
  | .priced _ _ _ d _ _ => d

/-- The `Total` field of a result line. -/
def QuoteLine.totalVal : QuoteLine → ℚ
  | .notFound _ t => t
  | .priced _ _ _ _ _ t => t

/-- Python `round(q, 2)`: scale by 100, round half to even, unscale. -/
def pyRound2 (q : ℚ) : ℚ :=
  let x := q * 100
  let f : ℤ := Int.floor x
  let r : ℚ := x - (f : ℚ)
  let n : ℤ :=
    if r < 1 / 2 then f
    else if 1 / 2 < r then f + 1
    else if f % 2 = 0 then f else f + 1
  (n : ℚ) / 100

/-- Line `disc = float(disc_override) if disc_override else prod['Standard
Discount']` — Python truthiness: `None` and `0` both fall back. -/
def effDisc : Option ℚ → ℚ → ℚ
  | some d, std => if d = 0 then std else d
  | none, std => std

/-- Line `net = lp * (1 - disc/100)`. -/
def netOf (lp disc : ℚ) : ℚ :=
  lp * (1 - disc / 100)

/-- Line `gst = net * 0.18` (the rate is hard-coded in `get_quote`). -/
def gstOf (net : ℚ) : ℚ :=
  net * (18 / 100)

/-- Line `total = (net + gst) * qty`. -/
def totalOf (net gst qty : ℚ) : ℚ :=
  (net + gst) * qty

/-- The row predicate of
`self.catalog['Item Name'].astype(str).str.contains(name, case=False, na=False)`
under a literal reading of the pattern.  pandas defaults `regex=True`,
so the reference is really compiled as a regular expression; this
literal reading coincides with the code exactly when the reference is
free of regex metacharacters (true of all references used with it
below).  The faithful regex model, including the `re.error` path, is
`quoteOneRe` further down. -/
def matchesItem (nm : String) (r : CatalogRow) : Bool :=
  containsCI r.itemName nm

/-- Body of the `for item in items` loop of `get_quote` for one item,
under the literal (metacharacter-free) reading of the reference;
`quoteOneRe` below is the regex-faithful version. -/
def quoteOne (catalog : List CatalogRow) (ov : Option ℚ) (it : QuoteItem) :
    QuoteLine :=
  match catalog.filter (matchesItem it.name) with
  | [] => .notFound ("NOT FOUND: " ++ it.name) 0
  | prod :: _ =>
    let disc := effDisc ov prod.standardDiscount
    let net := netOf prod.listPrice disc
    let gst := gstOf net
    .priced prod.itemName it.qty (pyRound2 prod.listPrice) (pyRound2 disc)
      (pyRound2 net) (pyRound2 (totalOf net gst it.qty))

/-- Method `QuotationSystem.get_quote` (`src/api/index.py` lines 102-129). -/
def get_quote (catalog : List CatalogRow) (ov : Option ℚ)
    (items : List QuoteItem) : List QuoteLine :=
  items.map (quoteOne catalog ov)

/-! ### Regular-expression model of `str.contains(name, case=False)`

pandas `Series.str.contains` defaults to `regex=True`: the free-text
reference is compiled with `re.compile(name, re.IGNORECASE)` and each
description is tested with `search`; an invalid pattern raises
`re.error` out of `get_quote`.  The model below implements the regular
core of Python's syntax — literals, `.`, groups `(...)` (also `(?:` and
`(?P<name>`), alternation `|`, the quantifiers `*` `+` `?` `{m,n}`
(with their lazy `?` variants), character classes `[...]` with ranges
and negation, and the usual escapes — with the same error messages
Python produces for unbalanced parentheses, dangling quantifiers,
unterminated classes and bad escapes.  Constructs outside the regular
core (anchors, word boundaries, backreferences, lookaround, inline
flags, hex/unicode escapes) are mapped to a parse error and are not
exercised by any theorem below.  Matching is language membership via
Brzozowski derivatives, which agrees with `re.search`'s boolean result
on this backtracking-complete core. -/

deriving instance DecidableEq for Except

/-- One item of a character class `[...]`. -/
inductive ClsItem where
  | single (c : Char)
  | range (a b : Char)
  | perD
  | perND
  | perW
  | perNW
  | perS
  | perNS
deriving DecidableEq

/-- Regular-expression abstract syntax. -/
inductive Re where
  | emp
  | eps
  | chr (c : Char)
  | any
  | cls (neg : Bool) (items : List ClsItem)
  | seq (a b : Re)
  | alt (a b : Re)
  | star (a : Re)
deriving DecidableEq

/-- Case-insensitive character comparison (`re.IGNORECASE`). -/
def charEqCI (a b : Char) : Bool :=
  a.toUpper == b.toUpper

/-- Membership in `\w` (letters, digits, underscore). -/
def isWordChar (c : Char) : Bool :=
  c.isAlphanum || c == '_'

/-- Membership in `\s`. -/
def isSpaceChar (c : Char) : Bool :=
  c == ' ' || c == '\t' || c == '\n' || c == '\r' || c == '\x0b' || c == '\x0c'

/-- Whether one class item admits a character. -/
def clsItemMatch : ClsItem → Char → Bool
  | .single a, c => a == c
  | .range a b, c => a ≤ c && c ≤ b
  | .perD, c => c.isDigit
  | .perND, c => !c.isDigit
  | .perW, c => isWordChar c
  | .perNW, c => !isWordChar c
  | .perS, c => isSpaceChar c
  | .perNS, c => !isSpaceChar c

/-- Class membership under `re.IGNORECASE`: the character or either of
its case siblings may hit an item; negation applies afterwards. -/
def clsMatchCI (neg : Bool) (items : List ClsItem) (c : Char) : Bool :=
  let hit := items.any fun it =>
    clsItemMatch it c || clsItemMatch it c.toUpper || clsItemMatch it c.toLower
  if neg then !hit else hit

/-- Whether the language of `r` contains the empty string. -/
def nullable : Re → Bool
  | .emp => false
  | .eps => true
  | .chr _ => false
  | .any => false
  | .cls _ _ => false
  | .seq a b => nullable a && nullable b
  | .alt a b => nullable a || nullable b
  | .star _ => true

/-- Brzozowski derivative of `r` by the character `c`. -/
def deriv : Re → Char → Re
  | .emp, _ => .emp
  | .eps, _ => .emp
  | .chr a, c => if charEqCI a c then .eps else .emp
  | .any, c => if c == '\n' then .emp else .eps
  | .cls n items, c => if clsMatchCI n items c then .eps else .emp
  | .seq a b, c =>
    if nullable a then .alt (.seq (deriv a c) b) (deriv b c)
    else .seq (deriv a c) b
  | .alt a b, c => .alt (deriv a c) (deriv b c)
  | .star a, c => .seq (deriv a c) (.star a)

/-- Whether some prefix of the text is in the language of `r`. -/
def prefMatch : Re → List Char → Bool
  | r, [] => nullable r
  | r, c :: t => nullable r || prefMatch (deriv r c) t

/-- Boolean result of `re.search`: some substring of the text is in
the language of `r`. -/
def reSearch (r : Re) : List Char → Bool
  | [] => nullable r
  | c :: t => prefMatch r (c :: t) || reSearch r t

/-- Search applied to a description string. -/
def reContains (r : Re) (hay : String) : Bool :=
  reSearch r hay.toList

/-- Concatenation of `n` copies of `r` (for `{m,n}` expansion). -/
def seqN : ℕ → Re → Re
  | 0, _ => .eps
  | n + 1, r => .seq r (seqN n r)

/-- Up to `n` optional copies of `r` (for `{m,n}` expansion). -/
def optN : ℕ → Re → Re
  | 0, _ => .eps
  | n + 1, r => .alt .eps (.seq r (optN n r))

/-- Counted repetition `r{m}`, `r{m,}`, `r{m,n}` by expansion; an empty
interval is the error Python reports. -/
def repRange (r : Re) (m : ℕ) (n : Option ℕ) : Except String Re :=
  match n with
  | none => .ok (.seq (seqN m r) (.star r))
  | some n =>
    if n < m then .error "min repeat greater than max repeat"
    else .ok (.seq (seqN m r) (optN (n - m) r))

/-- Parse the body of a counted repetition after `{`: the Python forms
are `{m}`, `{m,}`, `{,n}` and `{m,n}`; anything else makes the brace a
literal character, exactly as in Python. -/
def parseCount (l : List Char) : Option (ℕ × Option ℕ × List Char) :=
  let ds1 := l.takeWhile Char.isDigit
  let r1 := l.dropWhile Char.isDigit
  match r1 with
  | '}' :: t =>
    if ds1.isEmpty then none
    else some (digitsVal ds1, some (digitsVal ds1), t)
  | ',' :: r2 =>
    let ds2 := r2.takeWhile Char.isDigit
    let r3 := r2.dropWhile Char.isDigit
    match r3 with
    | '}' :: t =>
      if ds1.isEmpty && ds2.isEmpty then none
      else some (digitsVal ds1,
        if ds2.isEmpty then none else some (digitsVal ds2), t)
    | _ => none
  | _ => none

/-- Escapes valid at atom position.  Unknown letter escapes are the
"bad escape" error, as in Python; boundary, backreference and
hex/unicode escapes are outside the modeled subset. -/
def escAtom (c : Char) : Except String Re :=
  if c == 'd' then .ok (.cls false [.perD])
  else if c == 'D' then .ok (.cls false [.perND])
  else if c == 'w' then .ok (.cls false [.perW])
  else if c == 'W' then .ok (.cls false [.perNW])
  else if c == 's' then .ok (.cls false [.perS])
  else if c == 'S' then .ok (.cls false [.perNS])
  else if c == 'n' then .ok (.chr '\n')
  else if c == 't' then .ok (.chr '\t')
  else if c == 'r' then .ok (.chr '\r')
  else if c == 'f' then .ok (.chr '\x0c')
  else if c == 'v' then .ok (.chr '\x0b')
  else if c == 'a' then .ok (.chr '\x07')
  else if c == '0' then .ok (.chr '\x00')
  else if c.isDigit then .error "backreferences are outside the modeled subset"
  else if c == 'b' || c == 'B' || c == 'A' || c == 'Z' then
    .error "boundary escapes are outside the modeled subset"
  else if c == 'x' || c == 'u' || c == 'U' || c == 'N' then
    .error "coded escapes are outside the modeled subset"
  else if c.isAlpha then .error ("bad escape \\" ++ String.mk [c])
  else .ok (.chr c)

/-- Escapes valid inside a character class. -/
def escClsItem (c : Char) : Except String ClsItem :=
  if c == 'd' then .ok .perD
  else if c == 'D' then .ok .perND
  else if c == 'w' then .ok .perW
  else if c == 'W' then .ok .perNW
  else if c == 's' then .ok .perS
  else if c == 'S' then .ok .perNS
  else if c == 'n' then .ok (.single '\n')
  else if c == 't' then .ok (.single '\t')
  else if c == 'r' then .ok (.single '\r')
  else if c == 'f' then .ok (.single '\x0c')
  else if c == 'v' then .ok (.single '\x0b')
  else if c == 'a' then .ok (.single '\x07')
  else if c.isDigit then .error "octal escapes are outside the modeled subset"
  else if c == 'b' then .ok (.single '\x08')
  else if c == 'x' || c == 'u' || c == 'U' || c == 'N' then
    .error "coded escapes are outside the modeled subset"
  else if c.isAlpha then .error ("bad escape \\" ++ String.mk [c])
  else .ok (.single c)

/-- Items of a class body up to the closing bracket; an unterminated
class and an inverted range are the errors Python reports. -/
def parseClsBody : List Char → Except String (List ClsItem × List Char)
  | [] => .error "unterminated character set"
  | ']' :: t => .ok ([], t)
  | '\\' :: [] => .error "bad escape (end of pattern)"
  | '\\' :: e :: t => do
    let item ← escClsItem e
    let (items, rest) ← parseClsBody t
    .ok (item :: items, rest)
  | a :: '-' :: ']' :: t => .ok ([.single a, .single '-'], t)
  | _ :: '-' :: '\\' :: _ => .error "bad character range"
  | a :: '-' :: b :: t =>
    if a ≤ b then do
      let (items, rest) ← parseClsBody t
      .ok (.range a b :: items, rest)
    else .error "bad character range"
  | a :: t => do
    let (items, rest) ← parseClsBody t
    .ok (.single a :: items, rest)

/-- A whole class after the opening `[`: optional `^` negation, then a
literal `]` is allowed first, then the body. -/
def parseCls (l : List Char) : Except String (Re × List Char) :=
  let p1 := match l with
    | '^' :: t => (true, t)
    | _ => (false, l)
  let p2 := match p1.2 with
    | ']' :: t => ([ClsItem.single ']'], t)
    | _ => ([], p1.2)
  match parseClsBody p2.2 with
  | .error e => .error e
  | .ok (items, rest) => .ok (.cls p1.1 (p2.1 ++ items), rest)

/-- After a quantifier and its optional lazy `?`, a further quantifier
is the "multiple repeat" error (possessive quantifiers are outside the
modeled subset). -/
def noRep (q : Re) : List Char → Except String (Re × List Char)
  | '*' :: _ => .error "multiple repeat"
  | '+' :: _ => .error "multiple repeat"
  | '?' :: _ => .error "multiple repeat"
  | '{' :: t =>
    match parseCount t with
    | some _ => .error "multiple repeat"
    | none => .ok (q, '{' :: t)
  | l => .ok (q, l)

/-- Right after a quantifier: one `?` makes it lazy (same language),
any other quantifier is "multiple repeat". -/
def quantTail (q : Re) : List Char → Except String (Re × List Char)
  | '?' :: t => noRep q t
  | '*' :: _ => .error "multiple repeat"
  | '+' :: _ => .error "multiple repeat"
  | '{' :: t =>
    match parseCount t with
    | some _ => .error "multiple repeat"
    | none => .ok (q, '{' :: t)
  | l => .ok (q, l)

/-- Quantifiers following an atom; a brace that is not a valid counted
repetition is a literal and is left for the next atom. -/
def applyQuants (a : Re) : List Char → Except String (Re × List Char)
  | '*' :: t => quantTail (.star a) t
  | '+' :: t => quantTail (.seq a (.star a)) t
  | '?' :: t => quantTail (.alt .eps a) t
  | '{' :: t =>
    match parseCount t with
    | some (m, n, rest) => do
      let r ← repRange a m n
      quantTail r rest
    | none => .ok (a, '{' :: t)
  | l => .ok (a, l)

/-- Parser modes: alternation, concatenation, quantified atom, atom,
and group tail (an alternation that must be closed by `)`). -/
inductive ReMode where
  | altM
  | seqM
  | postM
  | atomM
  | grpM
deriving DecidableEq

/-- Fueled recursive-descent parser for the modeled subset of Python's
regex syntax.  The fuel only bounds the recursion depth (every level
either consumes a character or steps to a smaller sub-parse), so
`reCompile`'s allowance of `8 * length + 8` is never exhausted. -/
def parseF : ℕ → ReMode → List Char → Except String (Re × List Char)
  | 0, _, _ => .error "pattern too deeply nested"
  | f + 1, .altM, l => do
    let (r, rest) ← parseF f .seqM l
    match rest with
    | '|' :: t => do
      let (r2, rest2) ← parseF f .altM t
      .ok (.alt r r2, rest2)
    | _ => .ok (r, rest)
  | _ + 1, .seqM, [] => .ok (.eps, [])
  | _ + 1, .seqM, ')' :: t => .ok (.eps, ')' :: t)
  | _ + 1, .seqM, '|' :: t => .ok (.eps, '|' :: t)
  | f + 1, .seqM, l => do
    let (a, rest) ← parseF f .postM l
    let (b, rest2) ← parseF f .seqM rest
    .ok (.seq a b, rest2)
  | f + 1, .postM, l => do
    let (a, rest) ← parseF f .atomM l
    applyQuants a rest
  | f + 1, .grpM, l => do
    let (r, rest) ← parseF f .altM l
    match rest with
    | ')' :: t => .ok (r, t)
    | _ => .error "missing ), unterminated subpattern"
  | _ + 1, .atomM, [] => .error "nothing to repeat"
  | f + 1, .atomM, '(' :: '?' :: ':' :: t => parseF f .grpM t
  | f + 1, .atomM, '(' :: '?' :: 'P' :: '<' :: t =>
    (match t.dropWhile (fun c => c ≠ '>') with
      | '>' :: t2 => parseF f .grpM t2
      | _ => .error "missing >, unterminated name")
  | _ + 1, .atomM, '(' :: '?' :: _ =>
    .error "regex extensions are outside the modeled subset"
  | f + 1, .atomM, '(' :: t => parseF f .grpM t
  | _ + 1, .atomM, '[' :: t => parseCls t
  | _ + 1, .atomM, '\\' :: [] => .error "bad escape (end of pattern)"
  | _ + 1, .atomM, '\\' :: e :: t => do
    let r ← escAtom e
    .ok (r, t)
  | _ + 1, .atomM, '*' :: _ => .error "nothing to repeat"
  | _ + 1, .atomM, '+' :: _ => .error "nothing to repeat"
  | _ + 1, .atomM, '?' :: _ => .error "nothing to repeat"
  | _ + 1, .atomM, '^' :: _ => .error "anchors are outside the modeled subset"
  | _ + 1, .atomM, '$' :: _ => .error "anchors are outside the modeled subset"
  | _ + 1, .atomM, '{' :: t =>
    (match parseCount t with
      | some _ => .error "nothing to repeat"
      | none => .ok (.chr '{', t))
  | _ + 1, .atomM, '.' :: t => .ok (.any, t)
  | _ + 1, .atomM, c :: t => .ok (.chr c, t)

/-- Model of `re.compile(name, re.IGNORECASE)` inside `str.contains`:
parse the whole reference; a leftover `)` is Python's "unbalanced
parenthesis" error. -/
def reCompile (pat : String) : Except String Re :=
  match parseF (8 * pat.length + 8) .altM pat.toList with
  | .error e => .error e
  | .ok (r, []) => .ok r
  | .ok (_, _ :: _) => .error "unbalanced parenthesis"

/-- Regex-faithful body of the `for item in items` loop of `get_quote`:
the reference is compiled (an invalid pattern raises `re.error`, the
`.error` case), every description is searched, an empty match set gives
the placeholder and otherwise the first matching row prices the line. -/
def quoteOneRe (catalog : List CatalogRow) (ov : Option ℚ) (it : QuoteItem) :
    Except String QuoteLine :=
  match reCompile it.name with
  | .error e => .error e
  | .ok r =>
    match catalog.filter (fun row => reContains r row.itemName) with
    | [] => .ok (.notFound ("NOT FOUND: " ++ it.name) 0)
    | prod :: _ =>
      let disc := effDisc ov prod.standardDiscount
      let net := netOf prod.listPrice disc
      let gst := gstOf net
      .ok (.priced prod.itemName it.qty (pyRound2 prod.listPrice)
        (pyRound2 disc) (pyRound2 net) (pyRound2 (totalOf net gst it.qty)))

/-- Regex-faithful `get_quote`: the loop over `items`, where an
uncaught `re.error` on any line aborts the whole call and no results
are returned for any line. -/
def get_quote_re (catalog : List CatalogRow) (ov : Option ℚ) :
    List QuoteItem → Except String (List QuoteLine)
  | [] => .ok []
  | it :: rest =>
    match quoteOneRe catalog ov it with
    | .error e => .error e
    | .ok line =>
      match get_quote_re catalog ov rest with
      | .error e => .error e
      | .ok lines => .ok (line :: lines)

/-! ### Converter (`src/data/convert_data.py`, `process_master_file`)

A raw sheet is a grid of `Option String` cells (`none` models `NaN`).
Header detection joins the non-`NaN` cells of a row, uppercased, with
spaces (`" ".join(str(x).upper() for x in row if pd.notna(x))`) and
tests keyword substrings of the joined string. -/

/-- Price keywords of the header detection loop (line 66). -/
def priceKws : List String :=
  ["LP", "PRICE", "RATE"]

/-- Description keywords of the header detection loop (line 67). -/
def descKws : List String :=
  ["ITEM", "DESC", "CODE", "SIZE", "CABLE", "PARTICULARS", "XLPE", "KV", "CORE"]

/-- Value `row_str`: the space-joined non-`NaN` cells of a row.  The source
uppercases each cell here and then tests uppercase keywords with `in`;
testing the join with the case-insensitive `containsCI` is the same. -/
def rowJoin (row : List (Option String)) : String :=
  String.intercalate " " (row.filterMap id)

/-- Condition `has_price and has_desc` for one raw row. -/
def isHeaderRow (row : List (Option String)) : Bool :=
  priceKws.any (fun k => containsCI (rowJoin row) k) &&
    descKws.any (fun k => containsCI (rowJoin row) k)

/-- Index of the first header row in a list of raw rows. -/
def locate : List (List (Option String)) → Option ℕ
  | [] => none
  | r :: rs => if isHeaderRow r then some 0 else (locate rs).map (· + 1)

/-- Value `header_idx` of `process_master_file`: the raw sheet is read with
`nrows=50`, so only the first 50 rows are scanned. -/
def find_header (rows : List (List (Option String))) : Option ℕ :=
  locate (rows.take 50)

/-- Whitespace-stripping of a cell text (`str(c).strip()`). -/
def trimChars (s : String) : String :=
  String.mk
    (((s.toList.dropWhile Char.isWhitespace).reverse.dropWhile
        Char.isWhitespace).reverse)

/-- Column names of the reloaded frame: the header row's cells,
stripped; a `NaN` header cell gets pandas' `Unnamed: i` name. -/
def colNames : ℕ → List (Option String) → List String
  | _, [] => []
  | i, c :: rest =>
    (match c with
      | some s => trimChars s
      | none => "Unnamed: " ++ toString i) :: colNames (i + 1) rest

/-- Lookup `df[name]` for one row: the cell under the first column called
`name` (missing column or short row gives `NaN`). -/
def cellAtName (cols : List String) (name : String)
    (row : List (Option String)) : Option String :=
  (row.get? (cols.indexOf name)).join

/-- List `possible_desc` (lines 86-89): the fixed candidate list plus every
column whose name contains both "CABLE" and "ARM". -/
def possibleDescCols (cols : List String) : List String :=
  ["Item Description", "Description", "Particulars", "Code", "Size",
      "Item Name", "XLPE", "KV", "CORE"] ++
    cols.filter (fun c => containsCI c "CABLE" && containsCI c "ARM")

/-- Candidate loop of lines 91-93: first candidate with a matching
column wins; the match is the first such column. -/
def descColScan (cols : List String) : List String → Option String
  | [] => none
  | cand :: rest =>
    match cols.find? (fun c => containsCI c cand) with
    | some m => some m
    | none => descColScan cols rest

/-- Value `desc_col` with the line-95 fallback to the first column. -/
def descCol (cols : List String) : Option String :=
  match descColScan cols (possibleDescCols cols) with
  | some m => some m
  | none => cols.head?

/-- Line 99: prefer a column containing "PER MTR" or "PER METER". -/
def perMtrCol (cols : List String) : Option String :=
  cols.find? (fun c => containsCI c "PER MTR" || containsCI c "PER METER")

/-- Keyword list of the fallback loop (line 101). -/
def priceKeywordList : List String :=
  ["LP", "List Price", "Rate", "Price", "Amount", "MRP"]

/-- Fallback loop of lines 101-104.  For each keyword take the first
column containing it (`keyword.upper() == c.upper()` is subsumed by the
`in` test); a match containing "AMOUNT" is skipped (`continue`) only
when some column contains "RATE". -/
def keywordScan (cols : List String) : List String → Option String
  | [] => none
  | kw :: rest =>
    match cols.find? (fun c => containsCI c kw) with
    | some m =>
      if containsCI m "AMOUNT" && cols.any (fun x => containsCI x "RATE") then
        keywordScan cols rest
      else
        some m
    | none => keywordScan cols rest

/-- Value `price_col` (lines 97-104). -/
def price_col (cols : List String) : Option String :=
  match perMtrCol cols with
  | some c => some c
  | none => keywordScan cols priceKeywordList

/-- Value `disc_col` (line 107). -/
def discColFind (cols : List String) : Option String :=
  cols.find? (fun c => containsCI c "DISC" || containsCI c "OFF")

/-- Value `coil_col` (line 110). -/
def coilColFind (cols : List String) : Option String :=
  cols.find? (fun c =>
    containsCI c "COIL" && (containsCI c "LEN" || containsCI c "MTR") &&
      !containsCI c "QTY")

/-- Function `detect_uom` (`src/app.py` lines 88-94), also inlined at
`src/data/convert_data.py` lines 127-132. -/
def detect_uom (sheetName priceColName : String) : String :=
  if containsCI priceColName "MTR" || containsCI priceColName "METER" then "Mtr"
  else if containsCI priceColName "PC" || containsCI priceColName "PIECE" then "Pc"
  else if containsCI sheetName "GLAND" || containsCI sheetName "HMI" ||
      containsCI sheetName "COSMOS" then "Pc"
  else "Mtr"

/-- Model of `pd.to_numeric(x, errors='coerce')` on a cell: an optional
sign followed by a plain decimal literal made only of digits and at
most one dot; any other character (e.g. "12a") coerces to `NaN`
(`none`).  Exponent notation is outside the modeled subset; discount
cells are plain percentages. -/
def pyToNumeric : Option String → Option ℚ
  | none => none
  | some s =>
    match (trimChars s).toList with
    | '-' :: rest => (parseDigitDot rest).map Neg.neg
    | '+' :: rest => parseDigitDot rest
    | l => parseDigitDot l

/-- One row of a cleaned sheet (`clean_df` of `process_master_file`). -/
structure CleanRow where
  itemDescription : String
  listPrice : ℚ
  standardDiscount : ℚ
  coilLength : ℤ
  uom : String
deriving DecidableEq

/-- Conversion `df[desc_col].astype(str)` on one cell: `NaN` prints as "nan". -/
def cellStr : Option String → String
  | none => "nan"
  | some s => s

/-- Build one `clean_df` row from one data row (lines 112-134). -/
def extractRow (cols : List String) (descC priceC : String)
    (discC coilC : Option String) (uom : String)
    (row : List (Option String)) : CleanRow where
  itemDescription := cellStr (cellAtName cols descC row)
  listPrice := clean_price (cellAtName cols priceC row)
  standardDiscount :=
    match discC with
    | some c => (pyToNumeric (cellAtName cols c row)).getD 0
    | none => 0
  coilLength :=
    match coilC with
    | some c => clean_coil (cellAtName cols c row)
    | none => 0
  uom := uom

/-- The bad-row filter of lines 137-138: keep positive prices, then
drop rows whose description is the string "nan". -/
def convertRowFilter (rows : List CleanRow) : List CleanRow :=
  (rows.filter (fun r => decide (0 < r.listPrice))).filter
    (fun r => r.itemDescription != "nan")

/-- One raw sheet of the master workbook. -/
structure Sheet where
  name : String
  rows : List (List (Option String))

/-- Per-sheet body of `process_master_file` (lines 58-143): locate the
header, classify columns, extract and filter rows; a sheet without a
header (or without usable columns) contributes no rows and a skip
diagnostic. -/
def processSheet (s : Sheet) : List CleanRow × List String :=
  match find_header s.rows with
  | none => ([], ["Skipping " ++ s.name ++ " (No valid header found)"])
  | some i =>
    match s.rows.drop i with
    | [] => ([], [])
    | header :: dataRows =>
      let cols := colNames 0 header
      match descCol cols, price_col cols with
      | some dC, some pC =>
        let out := convertRowFilter (dataRows.map
          (extractRow cols dC pC (discColFind cols) (coilColFind cols)
            (detect_uom s.name pC)))
        (out, ["Mapped " ++ toString out.length ++ " items."])
      | _, _ => ([], ["Skipping " ++ s.name ++ " (Columns missing)"])

/-- The `for sheet in xls.sheet_names` loop: each sheet is processed
independently and its rows and diagnostics are accumulated. -/
def processWorkbook : List Sheet → List CleanRow × List String
  | [] => ([], [])
  | s :: rest =>
    let p := processSheet s
    let q := processWorkbook rest
    (p.1 ++ q.1, p.2 ++ q.2)

/-! ### App loader and sidebar (`src/app.py`) -/

/-- One catalog row as loaded by `load_data_from_files`. -/
structure AppRow where
  description : String
  listPrice : ℚ
  standardDiscount : ℚ
  coilLength : ℚ
  mainCategory : String
  subCategory : String
  uom : String
deriving DecidableEq

/-- The only row filter of `load_data_from_files` (line 313):
`clean_df = clean_df[clean_df['List Price'] > 0]` — there is no
description filter in this loader. -/
def appRowFilter (rows : List AppRow) : List AppRow :=
  rows.filter (fun r => decide (0 < r.listPrice))

/-- Sidebar input mode radio ("Coils" / "Meters", line 359). -/
inductive InputMode where
  | coils
  | meters
deriving DecidableEq

/-- Line 358: `coil_len > 0 and "MTR" in str(uom_raw).upper()`. -/
def coilToggleActive (coilLength : ℚ) (uomRaw : String) : Bool :=
  decide (0 < coilLength) && containsCI uomRaw "MTR"

/-- The quantity block of `src/app.py` lines 353-373: the computed
quantity `calc_qty` and the display unit `disp_unit` that are stored in
the cart line.  In the coil branch the unit is the fixed string "Mtr". -/
def sidebarQty (row : AppRow) (mode : InputMode) (nCoils : ℕ)
    (qtyInput : ℚ) : ℚ × String :=
  if coilToggleActive row.coilLength row.uom then
    match mode with
    | .coils => ((nCoils : ℚ) * row.coilLength, "Mtr")
    | .meters => (qtyInput, "Mtr")
  else
    (qtyInput, row.uom)

/-- The cart dict appended at lines 384-390. -/
structure CartLine where
  mainCategory : String
  subCategory : String
  description : String
  make : String
  qty : ℚ
  dispUnit : String
  listPrice : ℚ
  discount : ℚ
deriving DecidableEq

/-- Building the appended cart line from the selected catalog row and
the sidebar inputs. -/
def addCartLine (row : AppRow) (make : String) (mode : InputMode)
    (nCoils : ℕ) (qtyInput disc : ℚ) : CartLine :=
  let p := sidebarQty row mode nCoils qtyInput
  { mainCategory := row.mainCategory
    subCategory := row.subCategory
    description := row.description
    make := make
    qty := p.1
    dispUnit := p.2
    listPrice := row.listPrice
    discount := disc }

/-! ### Helper lemmas -/

lemma strWithin_nil (l : List Char) : strWithin [] l = true := by
  cases l <;> simp [strWithin, strLeads]

lemma containsCI_empty_pat (hay : String) : containsCI hay "" = true := by
  have h : upperChars "" = [] := rfl
  unfold containsCI
  rw [h]
  exact strWithin_nil _

lemma matchesItem_empty_name (r : CatalogRow) : matchesItem "" r = true :=
  containsCI_empty_pat _

lemma filter_matchesItem_empty (cat : List CatalogRow) :
    cat.filter (matchesItem "") = cat :=
  List.filter_eq_self.mpr fun a _ => matchesItem_empty_name a

lemma quoteOne_nomatch (catalog : List CatalogRow) (ov : Option ℚ)
    (it : QuoteItem) (h : catalog.filter (matchesItem it.name) = []) :
    quoteOne catalog ov it = .notFound ("NOT FOUND: " ++ it.name) 0 := by
  unfold quoteOne
  rw [h]

lemma quoteOne_match (catalog : List CatalogRow) (ov : Option ℚ)
    (it : QuoteItem) (e : CatalogRow) (rest : List CatalogRow)
    (h : catalog.filter (matchesItem it.name) = e :: rest) :
    quoteOne catalog ov it =
      .priced e.itemName it.qty (pyRound2 e.listPrice)
        (pyRound2 (effDisc ov e.standardDiscount))
        (pyRound2 (netOf e.listPrice (effDisc ov e.standardDiscount)))
        (pyRound2 (totalOf (netOf e.listPrice (effDisc ov e.standardDiscount))
          (gstOf (netOf e.listPrice (effDisc ov e.standardDiscount))) it.qty)) := by
  unfold quoteOne
  rw [h]

lemma filterHead_find {α : Type} (p : α → Bool) :
    ∀ (l : List α) (e : α) (rest : List α),
      l.filter p = e :: rest → l.find? p = some e := by
  intro l
  induction l with
  | nil => intro e rest h; simp [List.filter] at h
  | cons a t ih =>
    intro e rest h
    cases hpa : p a with
    | true =>
      rw [List.filter_cons, if_pos hpa] at h
      rw [List.find?, hpa]
      injection h with h1 h2
      exact congrArg some h1
    | false =>
      rw [List.filter_cons, if_neg (by simp [hpa])] at h
      rw [List.find?, hpa]
      exact ih e rest h

lemma pyRound2_intCast (n : ℤ) : pyRound2 ((n : ℚ)) = (n : ℚ) := by
  simp only [pyRound2]
  have hx : (n : ℚ) * 100 = ((n * 100 : ℤ) : ℚ) := by push_cast; ring
  rw [hx, Int.floor_intCast]
  norm_num

lemma pyRound2_den_one (q : ℚ) (h : q.den = 1) : pyRound2 q = q := by
  have hq : ((q.num : ℚ)) = q := by
    rw [← Rat.den_eq_one_iff]
    exact h
  rw [← hq, pyRound2_intCast]

lemma parseDigitDot_nonneg (l : List Char) (q : ℚ)
    (h : parseDigitDot l = some q) : 0 ≤ q := by
  unfold parseDigitDot at h
  split at h
  · rw [Option.some.injEq] at h
    rw [← h, Rat.mkRat_eq_div]
    positivity
  · exact absurd h (by simp)

lemma clean_price_nonneg (v : Option String) : 0 ≤ clean_price v := by
  cases v with
  | none => exact le_refl 0
  | some s =>
    show 0 ≤ (parseDigitDot (stripNonNumeric s)).getD 0
    cases h : parseDigitDot (stripNonNumeric s) with
    | none => exact le_refl 0
    | some q => simpa using parseDigitDot_nonneg _ q h

lemma locate_mem (rows : List (List (Option String))) (i : ℕ)
    (h : locate rows = some i) :
    ∃ r, rows.get? i = some r ∧ isHeaderRow r = true := by
  induction rows generalizing i with
  | nil => simp [locate] at h
  | cons r rs ih =>
    cases hr : isHeaderRow r with
    | true =>
      simp only [locate, hr, if_true] at h
      injection h with h1
      exact ⟨r, by rw [← h1]; rfl, hr⟩
    | false =>
      simp only [locate, hr, Bool.false_eq_true, if_false,
        Option.map_eq_some'] at h
      obtain ⟨i', hi', rfl⟩ := h
      obtain ⟨r', hr', hh⟩ := ih i' hi'
      exact ⟨r', by simpa using hr', hh⟩

lemma locate_first (rows : List (List (Option String))) (i : ℕ)
    (h : locate rows = some i) :
    ∀ j r, j < i → rows.get? j = some r → isHeaderRow r = false := by
  induction rows generalizing i with
  | nil => simp [locate] at h
  | cons r rs ih =>
    cases hr : isHeaderRow r with
    | true =>
      simp only [locate, hr, if_true] at h
      injection h with h1
      subst h1
      intro j r' hj
      exact absurd hj (Nat.not_lt_zero j)
    | false =>
      simp only [locate, hr, Bool.false_eq_true, if_false,
        Option.map_eq_some'] at h
      obtain ⟨i', hi', rfl⟩ := h
      intro j r' hj hg
      cases j with
      | zero =>
        injection hg with h1
        rw [← h1]
        exact hr
      | succ j' =>
        exact ih i' hi' j' r' (Nat.lt_of_succ_lt_succ hj) (by simpa using hg)

lemma locate_none_all (rows : List (List (Option String)))
    (h : locate rows = none) : ∀ r ∈ rows, isHeaderRow r = false := by
  induction rows with
  | nil => intro r hr; simp at hr
  | cons r rs ih =>
    cases hr : isHeaderRow r with
    | true => simp [locate, hr] at h
    | false =>
      simp only [locate, hr, Bool.false_eq_true, if_false,
        Option.map_eq_none'] at h
      intro r' hr'
      rcases List.mem_cons.mp hr' with h1 | h1
      · rw [h1]; exact hr
      · exact ih h r' h1

lemma keywordScan_amount (cols : List String) :
    ∀ (kws : List String) (m : String), keywordScan cols kws = some m →
      containsCI m "AMOUNT" = true →
      cols.any (fun x => containsCI x "RATE") = false := by
  intro kws
  induction kws with
  | nil => intro m h _; simp [keywordScan] at h
  | cons kw rest ih =>
    intro m h hm
    rw [keywordScan] at h
    cases hf : cols.find? (fun c => containsCI c kw) with
    | none =>
      rw [hf] at h
      exact ih m h hm
    | some c =>
      rw [hf] at h
      dsimp only at h
      by_cases hg :
          (containsCI c "AMOUNT" && cols.any fun x => containsCI x "RATE") = true
      · rw [if_pos hg] at h
        exact ih m h hm
      · rw [if_neg hg] at h
        injection h with h1
        subst h1
        cases hr : cols.any (fun x => containsCI x "RATE") with
        | false => rfl
        | true => exact absurd (by rw [hm, hr]; rfl) hg

/-! ### Claim theorems -/

/-- C5: `cleanPrice` is total on every raw cell value: it strips every
character that is not a digit or decimal point and parses the remainder
as a float, never raises (it is a total function into `ℚ`, with value 0
for missing input, the empty string, and garbage), and maps "5,355.00"
to 5355.  Stripping is idempotent: feeding the stripped text back in
gives the same value. -/
theorem clean_price_total :
    clean_price (some "5,355.00") = 5355
    ∧ clean_price none = 0
    ∧ clean_price (some "") = 0
    ∧ clean_price (some "Rs. abc") = 0
    ∧ (∀ v, 0 ≤ clean_price v)
    ∧ (∀ s, clean_price (some (String.mk (stripNonNumeric s)))
        = clean_price (some s)) := by
  refine ⟨by decide, rfl, by decide, by decide, clean_price_nonneg, ?_⟩
  intro s
  show (parseDigitDot (stripNonNumeric (String.mk (stripNonNumeric s)))).getD 0
    = (parseDigitDot (stripNonNumeric s)).getD 0
  have h : stripNonNumeric (String.mk (stripNonNumeric s)) = stripNonNumeric s := by
    show (String.mk (s.toList.filter keepNumeric)).toList.filter keepNumeric
      = s.toList.filter keepNumeric
    have h2 : (String.mk (s.toList.filter keepNumeric)).toList
        = s.toList.filter keepNumeric := rfl
    rw [h2, List.filter_filter]
    simp
  rw [h]

/-- C1: for the first matching catalog entry (with the tax rate 18 that
every built catalog row carries) and any positive quantity, the priced
line is built from `netRate = listPrice * (1 - effectiveDiscount/100)`,
per-unit tax `netRate * gstRate / 100`, and
`lineTotal = (netRate + tax) * quantity` — tax computed on the unit net
rate and then scaled by quantity, with rounding only on output. -/
theorem priceLine_formula (e : CatalogRow) (rest : List CatalogRow)
    (nm : String) (q : ℚ) (ov : Option ℚ) (d : ℚ)
    (hq : 0 < q) (hg : e.gstRate = 18) (hm : matchesItem nm e = true)
    (hd : d = effDisc ov e.standardDiscount) :
    quoteOne (e :: rest) ov ⟨nm, q⟩ =
        QuoteLine.priced e.itemName q (pyRound2 e.listPrice) (pyRound2 d)
          (pyRound2 (netOf e.listPrice d))
          (pyRound2 (totalOf (netOf e.listPrice d)
            (gstOf (netOf e.listPrice d)) q))
    ∧ netOf e.listPrice d = e.listPrice * (1 - d / 100)
    ∧ gstOf (netOf e.listPrice d) = netOf e.listPrice d * e.gstRate / 100
    ∧ totalOf (netOf e.listPrice d) (gstOf (netOf e.listPrice d)) q
        = (netOf e.listPrice d + gstOf (netOf e.listPrice d)) * q := by
  subst hd
  refine ⟨quoteOne_match (e :: rest) ov ⟨nm, q⟩ e (rest.filter (matchesItem nm))
    (by exact List.filter_cons_of_pos hm), rfl, ?_, rfl⟩
  rw [hg]
  unfold gstOf
  ring

/-- Witness for C1: the end-to-end scenario of the spec, obtained from
`priceLine_formula` — netRate 900, per-unit tax 162, line total 5310. -/
theorem priceLine_formula_check :
    quoteOne [⟨"HT Cable 3C x 95 Sqmm", 1000, 10, 18⟩] none
        ⟨"HT Cable 3C x 95 Sqmm", 5⟩ =
      QuoteLine.priced "HT Cable 3C x 95 Sqmm" 5 1000 10 900 5310
    ∧ netOf 1000 10 = 900
    ∧ gstOf 900 = 162
    ∧ totalOf 900 162 5 = 5310 := by
  have h := priceLine_formula ⟨"HT Cable 3C x 95 Sqmm", 1000, 10, 18⟩ []
    "HT Cable 3C x 95 Sqmm" 5 none 10 (by norm_num) rfl (by decide) rfl
  have hn : netOf (1000 : ℚ) 10 = 900 := by norm_num [netOf]
  have hgst : gstOf (900 : ℚ) = 162 := by norm_num [gstOf]
  have ht : totalOf (900 : ℚ) 162 5 = 5310 := by norm_num [totalOf]
  refine ⟨h.1.trans ?_, hn, hgst, ht⟩
  show QuoteLine.priced _ _ (pyRound2 1000) (pyRound2 10) (pyRound2 (netOf 1000 10))
      (pyRound2 (totalOf (netOf 1000 10) (gstOf (netOf 1000 10)) 5)) = _
  rw [hn, hgst, ht, pyRound2_den_one (1000 : ℚ) (by decide),
    pyRound2_den_one (10 : ℚ) (by decide), pyRound2_den_one (900 : ℚ) (by decide),
    pyRound2_den_one (5310 : ℚ) (by decide)]

/-- C2 counterexample: with a quote-level override of 0 and an entry
whose standard discount is 10, the priced line's discount is 10 — the
claim says an override of 0 supersedes and gives 0, but `if
disc_override` treats 0 as absent. -/
theorem override_zero_counterexample :
    (quoteOne [⟨"A", 1000, 10, 18⟩] (some 0) ⟨"A", 1⟩).discVal = 10
    ∧ (10 : ℚ) ≠ 0 := by
  constructor
  · rw [quoteOne_match [⟨"A", 1000, 10, 18⟩] (some 0) ⟨"A", 1⟩
      ⟨"A", 1000, 10, 18⟩ [] (by decide)]
    show pyRound2 (effDisc (some 0) 10) = 10
    rw [show effDisc (some 0) (10 : ℚ) = 10 from
      show (if (0 : ℚ) = 0 then (10 : ℚ) else 0) = 10 from if_pos rfl]
    exact pyRound2_den_one _ (by decide)
  · norm_num

/-- C2 amended: the effective discount equals the quote-level override
whenever the override is present and nonzero; an override of 0, like an
absent one, falls back to the entry's standard discount; a present
nonzero override applies to whatever line is being priced (it is one
quote-level value, not a per-line one). -/
theorem effective_discount_amended :
    (∀ d std : ℚ, d ≠ 0 → effDisc (some d) std = d)
    ∧ (∀ std : ℚ, effDisc (some 0) std = std)
    ∧ (∀ std : ℚ, effDisc none std = std)
    ∧ (∀ (cat : List CatalogRow) (d : ℚ) (it : QuoteItem) (e : CatalogRow)
        (rest : List CatalogRow), d ≠ 0 →
        cat.filter (matchesItem it.name) = e :: rest →
        (quoteOne cat (some d) it).discVal = pyRound2 d) := by
  refine ⟨?_, ?_, fun _ => rfl, ?_⟩
  · intro d std hd
    show (if d = 0 then std else d) = d
    exact if_neg hd
  · intro std
    show (if (0 : ℚ) = 0 then std else 0) = std
    exact if_pos rfl
  intro cat d it e rest hd hf
  rw [quoteOne_match _ _ _ _ _ hf]
  show pyRound2 (effDisc (some d) e.standardDiscount) = pyRound2 d
  rw [show effDisc (some d) e.standardDiscount = d from if_neg hd]

/-- Witness for C2's amended theorem at concrete inputs. -/
theorem effective_discount_amended_check :
    effDisc (some 5) 10 = 5
    ∧ effDisc (some 0) 10 = 10
    ∧ effDisc none 10 = 10
    ∧ (quoteOne [⟨"A", 1000, 10, 18⟩] (some 5) ⟨"A", 2⟩).discVal = pyRound2 5 :=
  ⟨effective_discount_amended.1 5 10 (by norm_num),
    effective_discount_amended.2.1 10,
    effective_discount_amended.2.2.1 10,
    effective_discount_amended.2.2.2 _ 5 _ ⟨"A", 1000, 10, 18⟩ []
      (by norm_num) (by decide)⟩

/-- C3 counterexample: for a coil item with `coilLength = 90`,
`UOM = "Mtr"` and 4 coils requested, the quantity is the converted 360
but the recorded display unit is the bare string "Mtr" — it does not
contain the coil-count annotation "4 Coils" the claim requires. -/
theorem coil_display_counterexample :
    sidebarQty ⟨"Wire", 100, 5, 90, "M", "S", "Mtr"⟩ InputMode.coils 4 1
      = (360, "Mtr")
    ∧ containsCI "Mtr" "4 Coils" = false := by
  constructor
  · have h : coilToggleActive (90 : ℚ) "Mtr" = true := by decide
    simp [sidebarQty, h]
    norm_num
  · decide

/-- C3 amended: whenever the coil toggle is active (positive coil
length and a "Mtr" unit), requesting `n` coils yields the effective
quantity `n * coilLength`, but the stored display unit is the fixed
string "Mtr" with no coil-count annotation. -/
theorem coil_quantity_amended (row : AppRow) (n : ℕ) (qIn : ℚ)
    (h : coilToggleActive row.coilLength row.uom = true) :
    sidebarQty row InputMode.coils n qIn = ((n : ℚ) * row.coilLength, "Mtr") := by
  unfold sidebarQty
  rw [if_pos h]

/-- Witness for C3's amended theorem: 4 coils of a 90 m coil item. -/
theorem coil_quantity_amended_check :
    coilToggleActive (90 : ℚ) "Mtr" = true
    ∧ sidebarQty ⟨"Wire", 100, 5, 90, "M", "S", "Mtr"⟩ InputMode.coils 4 1
        = (((4 : ℕ) : ℚ) * 90, "Mtr") := by
  refine ⟨by decide, ?_⟩
  exact coil_quantity_amended ⟨"Wire", 100, 5, 90, "M", "S", "Mtr"⟩ 4 1 (by decide)

/-- C9 counterexample: a cart line with quantity 0 (non-positive) is
not rejected — `get_quote` prices it silently, returning a normal
priced line with total 0 instead of any validation error. -/
theorem qty_validation_counterexample :
    quoteOne [⟨"A", 1000, 10, 18⟩] none ⟨"A", 0⟩
      = QuoteLine.priced "A" 0 1000 10 900 0 := by
  rw [quoteOne_match [⟨"A", 1000, 10, 18⟩] none ⟨"A", 0⟩
    ⟨"A", 1000, 10, 18⟩ [] (by decide)]
  show QuoteLine.priced "A" 0 (pyRound2 1000) (pyRound2 10)
      (pyRound2 (netOf 1000 10))
      (pyRound2 (totalOf (netOf 1000 10) (gstOf (netOf 1000 10)) 0)) = _
  have hn : netOf (1000 : ℚ) 10 = 900 := by norm_num [netOf]
  have hgst : gstOf (900 : ℚ) = 162 := by norm_num [gstOf]
  have ht : totalOf (900 : ℚ) 162 0 = 0 := by norm_num [totalOf]
  rw [hn, hgst, ht, pyRound2_den_one (1000 : ℚ) (by decide),
    pyRound2_den_one (10 : ℚ) (by decide), pyRound2_den_one (900 : ℚ) (by decide),
    pyRound2_den_one (0 : ℚ) (by decide)]

/-- C9 amended: `get_quote` performs no validation of quantity or
discount: a zero quantity is silently accepted and yields a line whose
total is 0 (a missing quantity defaults to 0 via `item.get('qty', 0)`),
and a falsy discount override falls back to the standard discount — no
input is rejected with a validation error. -/
theorem qty_not_validated (cat : List CatalogRow) (ov : Option ℚ)
    (it : QuoteItem) (h : it.qty = 0) :
    (quoteOne cat ov it).totalVal = 0 := by
  cases hf : cat.filter (matchesItem it.name) with
  | nil =>
    rw [quoteOne_nomatch cat ov it hf]
    rfl
  | cons e rest =>
    rw [quoteOne_match cat ov it e rest hf]
    show pyRound2 (totalOf (netOf e.listPrice (effDisc ov e.standardDiscount))
      (gstOf (netOf e.listPrice (effDisc ov e.standardDiscount))) it.qty) = 0
    have ht : ∀ a b : ℚ, totalOf a b 0 = 0 := by
      intro a b
      unfold totalOf
      ring
    rw [h, ht]
    exact pyRound2_den_one 0 (by decide)

/-- Witness for C9's amended theorem: quantity 0 yields total 0. -/
theorem qty_not_validated_check :
    (quoteOne [⟨"A", 1000, 10, 18⟩] none ⟨"A", 0⟩).totalVal = 0 :=
  qty_not_validated [⟨"A", 1000, 10, 18⟩] none ⟨"A", 0⟩ rfl

/-- C10: an empty-string product reference matches every entry under
the case-insensitive substring rule, so against any non-empty catalog
the line is priced from the first entry in catalog order and the
"NOT FOUND" branch is unreachable. -/
theorem empty_reference_first_match (e : CatalogRow) (rest : List CatalogRow)
    (ov : Option ℚ) (q : ℚ) :
    quoteOne (e :: rest) ov ⟨"", q⟩ =
        QuoteLine.priced e.itemName q (pyRound2 e.listPrice)
          (pyRound2 (effDisc ov e.standardDiscount))
          (pyRound2 (netOf e.listPrice (effDisc ov e.standardDiscount)))
          (pyRound2 (totalOf (netOf e.listPrice (effDisc ov e.standardDiscount))
            (gstOf (netOf e.listPrice (effDisc ov e.standardDiscount))) q))
    ∧ (quoteOne (e :: rest) ov ⟨"", q⟩).isNotFound = false := by
  have h1 := quoteOne_match (e :: rest) ov ⟨"", q⟩ e rest
    (by exact filter_matchesItem_empty (e :: rest))
  exact ⟨h1, by rw [h1]; rfl⟩

/-- C4 counterexample: the reference is compiled as a regular
expression (pandas `regex=True` default), not used as a literal
substring — the reference "Gland (25)" fails to match the identically
named entry (the parentheses group, so the regex matches "Gland 25"),
although it is a literal substring of it; and the reference "(" raises
`re.error`, aborting the whole batch including its other lines. -/
theorem regex_match_counterexample :
    quoteOneRe [⟨"Gland (25)", 100, 0, 18⟩] none ⟨"Gland (25)", 1⟩
      = .ok (QuoteLine.notFound "NOT FOUND: Gland (25)" 0)
    ∧ containsCI "Gland (25)" "Gland (25)" = true
    ∧ get_quote_re [⟨"Gland (25)", 100, 0, 18⟩] none [⟨"(", 1⟩, ⟨"Gland", 1⟩]
      = .error "missing ), unterminated subpattern" :=
  ⟨by decide, by decide, by decide⟩

/-- C4 amended: references are matched as case-insensitive regular
expressions; an invalid pattern raises `re.error` and aborts the whole
batch; for a reference that does compile, zero matches yield the
"NOT FOUND: <name>" placeholder with total 0, and one or more matches
deterministically price the line from the first matching entry in
catalog order. -/
theorem regex_match_policy :
    (∀ (cat : List CatalogRow) (ov : Option ℚ) (it : QuoteItem) (e : String),
        reCompile it.name = .error e → quoteOneRe cat ov it = .error e)
    ∧ (∀ (cat : List CatalogRow) (ov : Option ℚ) (pre : List QuoteItem)
        (it : QuoteItem) (post : List QuoteItem) (e : String),
        quoteOneRe cat ov it = .error e →
        (∀ l ∈ pre, ∃ line, quoteOneRe cat ov l = .ok line) →
        get_quote_re cat ov (pre ++ it :: post) = .error e)
    ∧ (∀ (cat : List CatalogRow) (ov : Option ℚ) (it : QuoteItem) (r : Re),
        reCompile it.name = .ok r →
        cat.filter (fun row => reContains r row.itemName) = [] →
        quoteOneRe cat ov it = .ok (.notFound ("NOT FOUND: " ++ it.name) 0))
    ∧ (∀ (cat : List CatalogRow) (ov : Option ℚ) (it : QuoteItem) (r : Re)
        (e : CatalogRow) (rest : List CatalogRow),
        reCompile it.name = .ok r →
        cat.filter (fun row => reContains r row.itemName) = e :: rest →
        cat.find? (fun row => reContains r row.itemName) = some e
          ∧ quoteOneRe cat ov it = .ok (.priced e.itemName it.qty
              (pyRound2 e.listPrice) (pyRound2 (effDisc ov e.standardDiscount))
              (pyRound2 (netOf e.listPrice (effDisc ov e.standardDiscount)))
              (pyRound2 (totalOf (netOf e.listPrice (effDisc ov e.standardDiscount))
                (gstOf (netOf e.listPrice (effDisc ov e.standardDiscount)))
                it.qty)))) := by
  refine ⟨?_, ?_, ?_, ?_⟩
  · intro cat ov it e h
    unfold quoteOneRe
    rw [h]
  · intro cat ov pre it post e hit
    induction pre with
    | nil =>
      intro _
      show get_quote_re cat ov (it :: post) = .error e
      unfold get_quote_re
      rw [hit]
    | cons l pre' ih =>
      intro hpre
      obtain ⟨line, hl⟩ := hpre l (List.mem_cons_self l pre')
      show get_quote_re cat ov (l :: (pre' ++ it :: post)) = .error e
      unfold get_quote_re
      rw [hl]
      dsimp only
      rw [ih (fun x hx => hpre x (List.mem_cons_of_mem l hx))]
  · intro cat ov it r hc hf
    unfold quoteOneRe
    rw [hc]
    dsimp only
    rw [hf]
  · intro cat ov it r e rest hc hf
    refine ⟨filterHead_find _ cat e rest hf, ?_⟩
    unfold quoteOneRe
    rw [hc]
    dsimp only
    rw [hf]

/-- Witness for C4's amended theorem: the invalid reference "(" errors
and aborts a batch whose earlier line succeeded and whose later line is
never priced; the compiling reference "A" yields the placeholder on a
non-matching catalog and prices the first of two matching entries. -/
theorem regex_match_policy_check :
    quoteOneRe [⟨"Cable A", 100, 0, 18⟩] none ⟨"(", 1⟩
      = .error "missing ), unterminated subpattern"
    ∧ get_quote_re [⟨"Cable A", 100, 0, 18⟩] none
        ([⟨"Zzz", 1⟩] ++ ⟨"(", 1⟩ :: [⟨"Cable", 2⟩])
      = .error "missing ), unterminated subpattern"
    ∧ quoteOneRe [⟨"Zzz", 7, 0, 18⟩] none ⟨"A", 3⟩
      = .ok (.notFound ("NOT FOUND: " ++ "A") 0)
    ∧ List.find? (fun row : CatalogRow => reContains (Re.seq (Re.chr 'A') Re.eps) row.itemName)
        [⟨"Cable A", 100, 0, 18⟩, ⟨"Cable B", 200, 0, 18⟩]
      = some ⟨"Cable A", 100, 0, 18⟩
    ∧ quoteOneRe [⟨"Cable A", 100, 0, 18⟩, ⟨"Cable B", 200, 0, 18⟩] none ⟨"A", 2⟩
      = .ok (.priced "Cable A" 2 (pyRound2 100) (pyRound2 (effDisc none 0))
          (pyRound2 (netOf 100 (effDisc none 0)))
          (pyRound2 (totalOf (netOf 100 (effDisc none 0))
            (gstOf (netOf 100 (effDisc none 0))) 2))) := by
  have h1 := regex_match_policy.1 [⟨"Cable A", 100, 0, 18⟩] none ⟨"(", 1⟩
    "missing ), unterminated subpattern" (by decide)
  have h4 := regex_match_policy.2.2.1 [⟨"Zzz", 7, 0, 18⟩] none ⟨"A", 3⟩
    (Re.seq (Re.chr 'A') Re.eps) (by decide) (by decide)
  have h5 := regex_match_policy.2.2.2
    [⟨"Cable A", 100, 0, 18⟩, ⟨"Cable B", 200, 0, 18⟩] none ⟨"A", 2⟩
    (Re.seq (Re.chr 'A') Re.eps) ⟨"Cable A", 100, 0, 18⟩
    [⟨"Cable B", 200, 0, 18⟩] (by decide) (by decide)
  refine ⟨h1, regex_match_policy.2.1 [⟨"Cable A", 100, 0, 18⟩] none
    [⟨"Zzz", 1⟩] ⟨"(", 1⟩ [⟨"Cable", 2⟩] "missing ), unterminated subpattern"
    h1 ?_, h4, h5.1, h5.2⟩
  intro l hl
  rw [List.mem_singleton.mp hl]
  exact ⟨.notFound ("NOT FOUND: " ++ "Zzz") 0, by decide⟩

/-- C6 counterexample: `load_data_from_files` keeps a row whose
description is the string "nan" (it filters on price only), and
`process_master_file` keeps a row whose description is empty (it only
drops the exact string "nan") — both contradict the claim that rows
with empty/"nan" descriptions are filtered out of every built catalog. -/
theorem catalog_filter_counterexample :
    appRowFilter [⟨"nan", 5, 0, 0, "M", "S", "Mtr"⟩]
      = [⟨"nan", 5, 0, 0, "M", "S", "Mtr"⟩]
    ∧ convertRowFilter [⟨"", 5, 0, 0, "Mtr"⟩] = [⟨"", 5, 0, 0, "Mtr"⟩] :=
  ⟨by decide, by decide⟩

/-- C6 amended: every surviving entry has a positive list price;
`process_master_file` additionally drops rows whose description is the
exact string "nan" (but not empty ones), while `load_data_from_files`
filters on price only. -/
theorem catalog_filter_amended :
    (∀ (rows : List CleanRow) (r : CleanRow), r ∈ convertRowFilter rows →
        0 < r.listPrice ∧ r.itemDescription ≠ "nan")
    ∧ (∀ (rows : List AppRow) (r : AppRow), r ∈ appRowFilter rows →
        0 < r.listPrice) := by
  constructor
  · intro rows r hr
    unfold convertRowFilter at hr
    have h2 := List.mem_filter.mp hr
    have h1 := List.mem_filter.mp h2.1
    exact ⟨of_decide_eq_true h1.2, by simpa using h2.2⟩
  · intro rows r hr
    exact of_decide_eq_true (List.mem_filter.mp hr).2

/-- Witness for C6's amended theorem on concrete surviving rows. -/
theorem catalog_filter_amended_check :
    (0 : ℚ) < 3 ∧ "x" ≠ "nan" ∧ (0 : ℚ) < 2 := by
  have h1 := catalog_filter_amended.1 [⟨"x", 3, 0, 0, "Mtr"⟩]
    ⟨"x", 3, 0, 0, "Mtr"⟩ (by decide)
  have h2 := catalog_filter_amended.2 [⟨"y", 2, 0, 0, "M", "S", "Pc"⟩]
    ⟨"y", 2, 0, 0, "M", "S", "Pc"⟩ (by decide)
  exact ⟨h1.1, h1.2, h2⟩

/-- C7 counterexample: on a sheet with columns "Item" and "Amount"
(no column containing "RATE"), the unit-price classifier selects the
"Amount" column — contradicting the claim that a header containing
"AMOUNT" is never selected. -/
theorem price_col_amount_counterexample :
    price_col ["Item", "Amount"] = some "Amount"
    ∧ containsCI "Amount" "AMOUNT" = true :=
  ⟨by decide, by decide⟩

/-- C7 amended: a "PER MTR"/"PER METER" column is preferred; otherwise
the keywords LP, List Price, Rate, Price, Amount, MRP are tried in that
order, each taking the first column containing it, and a candidate
containing "AMOUNT" is skipped only when some column contains "RATE" —
so an AMOUNT column can be selected exactly when no RATE column
exists. -/
theorem price_col_amended :
    (∀ (cols : List String) (c : String), perMtrCol cols = some c →
        price_col cols = some c)
    ∧ (∀ (cols : List String) (m : String),
        keywordScan cols priceKeywordList = some m →
        containsCI m "AMOUNT" = true →
        ∀ x ∈ cols, containsCI x "RATE" = false) := by
  constructor
  · intro cols c h
    unfold price_col
    rw [h]
  · intro cols m h hm x hx
    have hall := keywordScan_amount cols priceKeywordList m h hm
    cases hcx : containsCI x "RATE" with
    | false => rfl
    | true =>
      exfalso
      have : cols.any (fun x => containsCI x "RATE") = true :=
        List.any_eq_true.mpr ⟨x, hx, hcx⟩
      rw [this] at hall
      exact absurd hall (by simp)

/-- Witness for C7's amended theorem at concrete column lists. -/
theorem price_col_amended_check :
    price_col ["LP Per Mtr"] = some "LP Per Mtr"
    ∧ containsCI "Amount" "RATE" = false := by
  refine ⟨price_col_amended.1 ["LP Per Mtr"] "LP Per Mtr" (by decide), ?_⟩
  exact price_col_amended.2 ["Amount"] "Amount" (by decide) (by decide)
    "Amount" (by decide)

/-- C8: the header locator returns the first row among the 50 scanned
whose joined non-empty cell text contains at least one price keyword
(LP/PRICE/RATE) and at least one description keyword; if no scanned row
qualifies, the sheet is skipped with a diagnostic and contributes no
entries, while the other sheets of the workbook are still processed. -/
theorem header_locator_spec :
    (∀ (rows : List (List (Option String))) (i : ℕ),
        find_header rows = some i →
        (∃ r, (rows.take 50).get? i = some r ∧ isHeaderRow r = true)
          ∧ ∀ j r, j < i → (rows.take 50).get? j = some r →
              isHeaderRow r = false)
    ∧ (∀ rows, find_header rows = none →
        ∀ r ∈ rows.take 50, isHeaderRow r = false)
    ∧ (∀ s : Sheet, find_header s.rows = none →
        processSheet s
          = ([], ["Skipping " ++ s.name ++ " (No valid header found)"]))
    ∧ (∀ (s₁ : Sheet) (rest : List Sheet), find_header s₁.rows = none →
        (processWorkbook (s₁ :: rest)).1 = (processWorkbook rest).1
          ∧ ("Skipping " ++ s₁.name ++ " (No valid header found)")
              ∈ (processWorkbook (s₁ :: rest)).2) := by
  refine ⟨?_, ?_, ?_, ?_⟩
  · intro rows i h
    exact ⟨locate_mem _ i h, locate_first _ i h⟩
  · intro rows h
    exact locate_none_all _ h
  · intro s h
    unfold processSheet
    rw [h]
  · intro s₁ rest h
    have hp : processSheet s₁
        = ([], ["Skipping " ++ s₁.name ++ " (No valid header found)"]) := by
      unfold processSheet
      rw [h]
    constructor
    · show (processSheet s₁).1 ++ (processWorkbook rest).1 = _
      rw [hp]
      rfl
    · show _ ∈ (processSheet s₁).2 ++ (processWorkbook rest).2
      rw [hp]
      exact List.mem_append_left _ (List.mem_singleton_self _)

/-- Witness for C8: a header found at row 0 of a well-formed sheet, a
keyword-free sheet skipped with its diagnostic, and a workbook where
the skipped sheet leaves the sibling sheet's entries intact. -/
theorem header_locator_spec_check :
    (∃ r, (([[some "Item Description", some "Rate"],
          [some "Cable X", some "100"]] : List (List (Option String))).take
            50).get? 0 = some r ∧ isHeaderRow r = true)
    ∧ processSheet ⟨"Empty", [[some "hello"]]⟩
        = ([], ["Skipping Empty (No valid header found)"])
    ∧ (processWorkbook [⟨"Empty", [[some "hello"]]⟩,
          ⟨"Wires", [[some "Item Description", some "Rate"],
            [some "Cable X", some "100"]]⟩]).1
        = (processWorkbook [⟨"Wires", [[some "Item Description", some "Rate"],
            [some "Cable X", some "100"]]⟩]).1
    ∧ (processWorkbook [⟨"Wires", [[some "Item Description", some "Rate"],
          [some "Cable X", some "100"]]⟩]).1
        = [⟨"Cable X", 100, 0, 0, "Mtr"⟩] := by
  refine ⟨(header_locator_spec.1 [[some "Item Description", some "Rate"],
      [some "Cable X", some "100"]] 0 (by decide)).1,
    header_locator_spec.2.2.1 ⟨"Empty", [[some "hello"]]⟩ (by decide),
    (header_locator_spec.2.2.2 ⟨"Empty", [[some "hello"]]⟩
      [⟨"Wires", [[some "Item Description", some "Rate"],
        [some "Cable X", some "100"]]⟩] (by decide)).1,
    by decide⟩

end QuotationSystem
